import Mathlib

/-!
Verification development for the online-DMPC multi-agent planner.

The definitions below are shallow embeddings, translated from the C++ source
files of the repository:
  - `bvc_avoidance.cpp`   (Buffered Voronoi Cell collision-constraint builder)
  - `task_reallocation.cpp` and its header (periodic goal reassignment)
  - `main.cpp`            (simulator driver, post-run audits, entry point)
Real-valued quantities (Eigen doubles) are modelled by `ℝ`; the C++
`pow(x, 1.0/order)` is the real power `Real.rpow`.  Definitions whose names
begin with `spec_` are instead written from the natural-language
specification, to be compared against the code-derived definitions.
-/

open scoped Classical

namespace OnlineDMPC

/-- A 3-vector, one column of an Eigen 3×K matrix. -/
abbrev Vec3 := Fin 3 → ℝ

/-- The zero 3-vector, used as the out-of-range default for column access. -/
noncomputable def v3zero : Vec3 := fun _ => 0

/-- Eigen's `.norm()`: the Euclidean norm of a 3-vector. -/
noncomputable def norm2 (v : Vec3) : ℝ := Real.sqrt (∑ m : Fin 3, v m ^ 2)

/-! ## Ellipsoidal collision geometry (`bvc_avoidance.cpp`) -/

/-- `EllipseParams`: order, minimum separation and anisotropy vector `c`. -/
structure EllipseParams where
  order : ℕ
  rmin : ℝ
  c : Vec3

/-- The `Ellipse` record built by the `BVCAvoider` constructor: it stores the
diagonal matrices `E1 = diag(c)⁻¹` and `E2 = E1²` (entrywise square) through
their diagonals. -/
structure Ellipse where
  order : ℕ
  rmin : ℝ
  E1 : Vec3
  E2 : Vec3

/-- Construction of an `Ellipse` from `EllipseParams`, as in the
`BVCAvoider` constructor (`bvc_avoidance.cpp`, lines 19–28):
`E = c.asDiagonal(); E1 = E.inverse(); E2 = E1.array().pow(2)`. -/
noncomputable def mkEllipse (p : EllipseParams) : Ellipse :=
  { order := p.order
    rmin := p.rmin
    E1 := fun m => (p.c m)⁻¹
    E2 := fun m => (p.c m)⁻¹ ^ 2 }

/-- The state of a `BVCAvoider` object: the previous predicted horizons of all
bodies (`_horizon`, one 3×`k_hor` matrix per body, modelled as
`body → timestep → position`), the Bézier position map `_Phi_pos`
(a `3·k_hor × numVars` matrix), and the per-body ellipses. -/
structure BVCAvoider where
  horizon : ℕ → ℕ → Vec3
  Phi_pos : ℕ → ℕ → ℝ
  numVars : ℕ
  ellipse : ℕ → Ellipse
  k_hor : ℕ
  N : ℕ

/-- The ellipsoidal distance computed in `buildBVCConstraintForAgent`
(lines 54–56 and 84–87):
`pow((E1*(pi_k - pj_k)).array().pow(order).sum(), 1.0/order)`. -/
noncomputable def ellipDist (e : Ellipse) (pi_k pj_k : Vec3) : ℝ :=
  (∑ m : Fin 3, (e.E1 m * (pi_k m - pj_k m)) ^ e.order) ^ ((1 : ℝ) / (e.order : ℝ))

/-- The constraint gradient `diff_grad = (E2*(pi_k - pj_k)).array().pow(order-1)`
(line 90). -/
noncomputable def bvcGrad (e : Ellipse) (pi_k pj_k : Vec3) : Vec3 :=
  fun m => (e.E2 m * (pi_k m - pj_k m)) ^ (e.order - 1)

/-- `dist_pow = pow(d_ij, order - 1)` (line 91). -/
noncomputable def bvcDistPow (e : Ellipse) (pi_k pj_k : Vec3) : ℝ :=
  ellipDist e pi_k pj_k ^ (e.order - 1)

/-- The scan of `buildBVCConstraintForAgent` (lines 47–63): iterate `k` outer
over the horizon and `j` inner over all bodies, skip `j = agent_id`, and
collect the pair `(k, j)` whenever the ellipsoidal distance between the
previous predicted positions is below `rmin * 3.0`. -/
noncomputable def activePairs (av : BVCAvoider) (agent_id : ℕ) : List (ℕ × ℕ) :=
  (List.range av.k_hor).flatMap (fun k =>
    ((List.range av.N).filter (fun j =>
      decide (¬ j = agent_id ∧
        ellipDist (av.ellipse agent_id) (av.horizon agent_id k) (av.horizon j k) <
          (av.ellipse agent_id).rmin * 3))).map (fun j => (k, j)))

/-- The pair `{A, b}` of an inequality block `A x ≤ b` returned by an
avoider (`Constraint` in the C++ source). -/
structure Constraint where
  rows : ℕ
  cols : ℕ
  A : ℕ → ℕ → ℝ
  b : ℕ → ℝ

/-- One collision row of `Ain` (lines 94–97): the gradient placed on the
`k`-th position block of a zero row, multiplied by `-Phi_pos`; entry `c` is
`-∑_{m<3} diff_grad(m) · Phi_pos(3k+m, c)`. -/
noncomputable def collRowCoeff (av : BVCAvoider) (agent_id k j : ℕ) : ℕ → ℝ :=
  fun c =>
    -(∑ m : Fin 3,
      bvcGrad (av.ellipse agent_id) (av.horizon agent_id k) (av.horizon j k) m *
        av.Phi_pos (3 * k + (m : ℕ)) c)

/-- One collision right-hand side `bin(idx)` (line 98):
`-dist_pow * (rmin - d_ij) - diff_grad.dot(pi_k)`. -/
noncomputable def collRowRHS (av : BVCAvoider) (agent_id k j : ℕ) : ℝ :=
  -bvcDistPow (av.ellipse agent_id) (av.horizon agent_id k) (av.horizon j k) *
      ((av.ellipse agent_id).rmin -
        ellipDist (av.ellipse agent_id) (av.horizon agent_id k) (av.horizon j k)) -
    ∑ m : Fin 3,
      bvcGrad (av.ellipse agent_id) (av.horizon agent_id k) (av.horizon j k) m *
        av.horizon agent_id k m

/-- `BVCAvoider::buildBVCConstraintForAgent` (lines 39–113).  If no pair is
active the empty `0 × numVars` constraint is returned.  Otherwise, with
`n = active_pairs.size()`, the soft constraint is the `2n × (numVars + n)`
block matrix `[Ain, diag(dist_pow); 0, I]` with right-hand side `[bin; 0]`. -/
noncomputable def buildBVCConstraintForAgent (av : BVCAvoider) (agent_id : ℕ) : Constraint :=
  let pairs := activePairs av agent_id
  if pairs = [] then
    { rows := 0, cols := av.numVars, A := fun _ _ => 0, b := fun _ => 0 }
  else
    let n := pairs.length
    { rows := 2 * n
      cols := av.numVars + n
      A := fun r c =>
        if r < n then
          if c < av.numVars then
            collRowCoeff av agent_id (pairs.getD r (0, 0)).1 (pairs.getD r (0, 0)).2 c
          else if c = av.numVars + r then
            bvcDistPow (av.ellipse agent_id)
              (av.horizon agent_id (pairs.getD r (0, 0)).1)
              (av.horizon (pairs.getD r (0, 0)).2 (pairs.getD r (0, 0)).1)
          else 0
        else if r < 2 * n then
          if c = av.numVars + (r - n) then 1 else 0
        else 0
      b := fun r =>
        if r < n then
          collRowRHS av agent_id (pairs.getD r (0, 0)).1 (pairs.getD r (0, 0)).2
        else 0 }

/-- Modelled from the spec: the ellipsoidal `q`-norm distance
`‖E⁻¹(P_i(:,k) − P_j(:,k))‖_q`, with the absolute values of the true
`q`-norm. -/
noncomputable def spec_qnorm (e : Ellipse) (pi_k pj_k : Vec3) : ℝ :=
  (∑ m : Fin 3, |e.E1 m * (pi_k m - pj_k m)| ^ e.order) ^ ((1 : ℝ) / (e.order : ℝ))

/-- Modelled from the spec: the componentwise gradient
`g = (E⁻²(P_i(:,k)−P_j(:,k)))^{q−1}`. -/
noncomputable def spec_g (e : Ellipse) (pi_k pj_k : Vec3) : Vec3 :=
  fun m => (e.E2 m * (pi_k m - pj_k m)) ^ (e.order - 1)

/-! ## Task reallocation (`task_reallocation.cpp` and its header) -/

/-- A predicted horizon, an Eigen 3×cols matrix accessed column by column. -/
structure Horizon3D where
  cols : ℕ
  col : ℕ → Vec3

/-- C++ `static_cast<int>` on a double: truncation toward zero. -/
noncomputable def castInt (x : ℝ) : ℤ :=
  if 0 ≤ x then ⌊x⌋ else -⌊-x⌋

/-- The cost matrix of `computeOptimalAssignment` (lines 21–30):
`cost[i][j] = (agent_positions[i] - goal_positions[j]).norm()` with
`n = agent_positions.size()`. -/
noncomputable def reactiveCostMatrix (positions goals : List Vec3) : List (List ℝ) :=
  (List.range positions.length).map (fun i =>
    (List.range positions.length).map (fun j =>
      norm2 (fun m => (positions.getD i v3zero) m - (goals.getD j v3zero) m)))

/-- The cost matrix of `computePredictiveAssignment` (lines 51–69):
`prediction_step = static_cast<int>(_prediction_horizon / Ts)`; each agent is
sampled at that column of its predicted horizon, falling back to the last
column when the horizon has fewer columns; then
`cost[i][j] = (predicted_pos - goal_positions[j]).norm()`. -/
noncomputable def predictiveCostMatrix (prediction_horizon Ts : ℝ)
    (positions : List Vec3) (horizons : List Horizon3D) (goals : List Vec3) :
    List (List ℝ) :=
  let step := castInt (prediction_horizon / Ts)
  (List.range positions.length).map (fun i =>
    let H := horizons.getD i ⟨0, fun _ => v3zero⟩
    let predicted_pos := if step < (H.cols : ℤ) then H.col step.toNat else H.col (H.cols - 1)
    (List.range positions.length).map (fun j =>
      norm2 (fun m => predicted_pos m - (goals.getD j v3zero) m)))

/-- One row of the reallocation CSV log
(`timestamp,reallocation_id,agent_id,old_goal,new_goal,distance,method`). -/
structure ReallocLogRow where
  timestamp : ℝ
  reallocId : ℕ
  agentId : ℕ
  oldGoal : ℤ
  newGoal : ℤ
  distance : ℝ
  method : String

/-- The mutable state of a `TaskReallocationManager`: the configured period
and mode, the time of the last committed reallocation, the reallocation
counter, the stored committed assignment, the rows written to the log file,
and how many of them have been flushed. -/
structure ReallocState where
  period : ℝ
  lastTime : ℝ
  count : ℕ
  committed : List ℤ
  log : List ReallocLogRow
  flushed : ℕ
  usePredictive : Bool
  predictionHorizon : ℝ

/-- `TaskReallocationManager::shouldReallocate` (header, lines 33–35 and
159–161): `(current_time - last_reallocation_time_) >= reallocation_period_`. -/
def shouldReallocate (lastTime period t : ℝ) : Prop :=
  t - lastTime ≥ period

/-- Initial `last_reallocation_time_` in the compiled
`task_reallocation.cpp` constructor (line 11): `-reallocation_period`. -/
noncomputable def initLastTimeCpp (reallocation_period : ℝ) : ℝ :=
  -reallocation_period

/-- Initial `last_reallocation_time_` in the header-only
`TaskReallocationManager` variant (header, line 21): `0.0`. -/
noncomputable def initLastTimeHeader (reallocation_period : ℝ) : ℝ := 0.0

/-- The assignment solved inside `updateAssignment` (lines 94–100): the
Hungarian solver (an external black box, here a parameter `hung`) applied to
the predictive or the reactive cost matrix according to `_use_predictive`. -/
noncomputable def solvedAssignment (hung : List (List ℝ) → List ℤ) (st : ReallocState)
    (positions : List Vec3) (horizons : List Horizon3D) (goals : List Vec3) (Ts : ℝ) :
    List ℤ :=
  if st.usePredictive then
    hung (predictiveCostMatrix st.predictionHorizon Ts positions horizons goals)
  else
    hung (reactiveCostMatrix positions goals)

/-- Initialization of the stored assignment on the first call
(lines 102–105): an empty `current_assignment_` is replaced by the caller's
`assignment` before the comparison. -/
def committedInit (st : ReallocState) (assignment : List ℤ) : List ℤ :=
  if st.committed = [] then assignment else st.committed

/-- The change test of `updateAssignment` (lines 107–114): scan
`i < new_assignment.size()` for an index where the new assignment differs
from the stored one. -/
def assignmentChanged (newA committed0 : List ℤ) : Bool :=
  (List.range newA.length).any (fun i =>
    decide (¬ newA.getD i 0 = committed0.getD i 0))

/-- The rows appended to the log during a commit (lines 121–139): one row per
index `i` whose old goal (`-1` if the stored assignment is empty, otherwise
`current_assignment_[i]`) differs from `new_assignment[i]`, carrying the time,
the incremented counter, the Euclidean distance from the agent to its new
goal, and the method string. -/
noncomputable def reallocLogRows (t : ℝ) (cnt : ℕ) (usePredictive : Bool)
    (positions goals : List Vec3) (committed0 newA : List ℤ) : List ReallocLogRow :=
  (List.range newA.length).filterMap (fun i =>
    let oldGoal := if committed0 = [] then (-1 : ℤ) else committed0.getD i 0
    let newGoal := newA.getD i 0
    if oldGoal ≠ newGoal then
      some { timestamp := t
             reallocId := cnt
             agentId := i
             oldGoal := oldGoal
             newGoal := newGoal
             distance := norm2 (fun m =>
               (positions.getD i v3zero) m - (goals.getD newGoal.toNat v3zero) m)
             method := if usePredictive then "predictive" else "reactive" }
    else none)

/-- `TaskReallocationManager::updateAssignment` (lines 82–152).  Returns the
updated manager state, the (possibly overwritten) caller assignment vector,
and the boolean result.  If the reallocation period has not elapsed, nothing
happens.  Otherwise a new assignment is solved; an empty stored assignment is
first initialized to the caller's; if the new assignment differs from the
stored one at some index, the manager logs and flushes the changes,
increments the counter, overwrites both assignments and the last reallocation
time, and returns `true`; otherwise it returns `false`. -/
noncomputable def updateAssignment (hung : List (List ℝ) → List ℤ) (st : ReallocState)
    (current_time : ℝ) (positions : List Vec3) (horizons : List Horizon3D)
    (goals : List Vec3) (assignment : List ℤ) (Ts : ℝ) :
    ReallocState × List ℤ × Bool :=
  if ¬ shouldReallocate st.lastTime st.period current_time then
    (st, assignment, false)
  else
    let newA := solvedAssignment hung st positions horizons goals Ts
    let committed0 := committedInit st assignment
    if assignmentChanged newA committed0 then
      let cnt := st.count + 1
      let newLog := st.log ++
        reallocLogRows current_time cnt st.usePredictive positions goals committed0 newA
      ({ st with
          count := cnt
          committed := newA
          lastTime := current_time
          log := newLog
          flushed := newLog.length },
        newA, true)
    else
      ({ st with committed := committed0 }, assignment, false)

/-- Modelled from the spec: the predictive cost matrix with lookahead step
`k* = round(T_pred / Ts)`, clamped to the last column if the horizon is
shorter, and `C[i][j] = ‖P_i(:,k*) − g_j‖₂`. -/
noncomputable def spec_round_predictive_cost_matrix (prediction_horizon Ts : ℝ)
    (positions : List Vec3) (horizons : List Horizon3D) (goals : List Vec3) :
    List (List ℝ) :=
  let kstar := (round (prediction_horizon / Ts)).toNat
  (List.range positions.length).map (fun i =>
    let H := horizons.getD i ⟨0, fun _ => v3zero⟩
    let sample := if kstar < H.cols then H.col kstar else H.col (H.cols - 1)
    (List.range positions.length).map (fun j =>
      norm2 (fun m => sample m - (goals.getD j v3zero) m)))

/-- Modelled from the amended claim: the same matrix with the lookahead step
truncated, `k* = ⌊T_pred / Ts⌋`. -/
noncomputable def spec_floor_predictive_cost_matrix (prediction_horizon Ts : ℝ)
    (positions : List Vec3) (horizons : List Horizon3D) (goals : List Vec3) :
    List (List ℝ) :=
  let kstar := (⌊prediction_horizon / Ts⌋).toNat
  (List.range positions.length).map (fun i =>
    let H := horizons.getD i ⟨0, fun _ => v3zero⟩
    let sample := if kstar < H.cols then H.col kstar else H.col (H.cols - 1)
    (List.range positions.length).map (fun j =>
      norm2 (fun m => sample m - (goals.getD j v3zero) m)))

/-! ## Simulator audits and entry point (`main.cpp`) -/

/-- Parameters of the post-run collision audit
(`collision_check_rmin`, `collision_check_order`,
`collision_check_height_scaling`). -/
structure CollisionCheckParams where
  rmin : ℝ
  order : ℕ
  heightScaling : ℝ

/-- The diagonal of `E1_check = diag(1, 1, height_scaling)⁻¹` built in
`Simulator::collisionCheck` (lines 315–317). -/
noncomputable def checkE1 (prm : CollisionCheckParams) : Vec3 :=
  fun m => (if m = 2 then prm.heightScaling else 1)⁻¹

/-- The per-step ellipsoidal distance of `collisionCheck` (lines 328–329)
between the recorded trajectories of bodies `i` and `j` at step `k`. -/
noncomputable def checkDist (prm : CollisionCheckParams)
    (traj : ℕ → ℕ → Vec3) (i j k : ℕ) : ℝ :=
  (∑ m : Fin 3, (checkE1 prm m * (traj i k m - traj j k m)) ^ prm.order) ^
    ((1 : ℝ) / (prm.order : ℝ))

/-- Eigen's `minCoeff(&pos)` on a vector of coefficients: the minimum value
together with the index of its first occurrence (the visitor scans in order
and only updates on a strict decrease). -/
noncomputable def minCoeffIdx : List ℝ → ℝ × ℕ
  | [] => (0, 0)
  | x :: xs =>
      if (minCoeffIdx xs).1 < x ∧ xs ≠ [] then
        ((minCoeffIdx xs).1, (minCoeffIdx xs).2 + 1)
      else (x, 0)

/-- `Simulator::collisionCheck` (lines 312–346): for every pair `i < j` of
commanded bodies, take the minimum over the `K` recorded steps of the
ellipsoidal check distance; if it is below `collision_check_rmin`, report the
pair together with the minimum distance and the time `pos * Ts` of its first
attainment.  The returned list collects the reports in loop order. -/
noncomputable def collisionCheckReports (Ncmd K : ℕ) (Ts : ℝ)
    (prm : CollisionCheckParams) (traj : ℕ → ℕ → Vec3) :
    List (ℕ × ℕ × ℝ × ℝ) :=
  (List.range Ncmd).flatMap (fun i =>
    ((List.range Ncmd).filter (fun j => decide (i + 1 ≤ j) && decide (¬ i = j))).filterMap
      (fun j =>
        let dists := (List.range K).map (checkDist prm traj i j)
        let mn := minCoeffIdx dists
        if mn.1 < prm.rmin then some (i, j, mn.1, (mn.2 : ℝ) * Ts) else none))

/-- The boolean `violation` flag returned by `Simulator::collisionCheck`. -/
noncomputable def collisionCheckViolation (Ncmd K : ℕ) (Ts : ℝ)
    (prm : CollisionCheckParams) (traj : ℕ → ℕ → Vec3) : Bool :=
  !(collisionCheckReports Ncmd K Ts prm traj).isEmpty

/-- The distance computed in `Simulator::goalCheck` (lines 355–356):
`pow((states[i].pos - pf.col(i)).array().pow(2).sum(), 1.0/2)`. -/
noncomputable def goalCheckDist (pos pf_i : Vec3) : ℝ :=
  (∑ m : Fin 3, (pos m - pf_i m) ^ 2) ^ ((1 : ℝ) / 2)

/-- The fields of the `Simulator` object read by the post-run audits: the
originally configured goal matrix `_pf` (written only by the constructor),
the reallocation-maintained `_current_assignment`, the final states, the
number of commanded agents and the goal tolerance. -/
structure SimAuditState where
  Ncmd : ℕ
  pf : ℕ → Vec3
  currentAssignment : List ℤ
  finalPos : ℕ → Vec3
  tol : ℝ

/-- `Simulator::goalCheck` (lines 348–367): report every commanded agent
whose final position is farther than `goal_tolerance` from the originally
configured goal column `_pf.col(i)`.  The current assignment plays no role. -/
noncomputable def goalCheckReports (s : SimAuditState) : List ℕ :=
  (List.range s.Ncmd).filter (fun i =>
    decide (goalCheckDist (s.finalPos i) (s.pf i) > s.tol))

/-- The configuration file path opened by `main` (`main.cpp`, line 13): the
command-line arguments are ignored and the fixed relative path
`../config/config.json` is used. -/
def mainConfigPath (argv : List String) : String :=
  "../config/config.json"

/-- The exit status of `main` (`main.cpp`, line 25): `0` unconditionally, the
boolean results of the collision and goal audits being discarded inside
`Simulator::run`. -/
def mainExitCode (collisionViolation goalsReached : Bool) : ℤ := 0

/-- Modelled from the spec: the configuration path of the claimed CLI, the
single positional argument (`argv[1]`). -/
def spec_cli_config_path (argv : List String) : String :=
  argv.getD 1 ""

/-! ## Theorems -/

/-- For an even ellipse order the code's root-of-sum-of-powers distance is
exactly the spec's ellipsoidal `q`-norm. -/
theorem spec_qnorm_eq_ellipDist (e : Ellipse) (he : Even e.order) (pi_k pj_k : Vec3) :
    spec_qnorm e pi_k pj_k = ellipDist e pi_k pj_k := by
  unfold spec_qnorm ellipDist
  congr 1
  exact Finset.sum_congr rfl fun m _ => he.pow_abs _

/-- C7 (amended): the program ignores its command-line arguments, always
reads the configuration from the fixed relative path
`../config/config.json`, and exits with status `0` on successful simulation
completion regardless of the outcomes of the collision and goal audits. -/
theorem main_fixed_config_path_exit_zero :
    (∀ argv : List String, mainConfigPath argv = "../config/config.json") ∧
    (∀ cv gr : Bool, mainExitCode cv gr = 0) :=
  ⟨fun _ => rfl, fun _ _ => rfl⟩

/-- C7 counterexample: invoked with a positional argument naming a
configuration file, the program does not read that file; `main` opens the
fixed path `../config/config.json` instead of `argv[1]`. -/
theorem main_ignores_cli_argument :
    mainConfigPath ["online_dmpc", "/tmp/myconfig.json"] ≠
      spec_cli_config_path ["online_dmpc", "/tmp/myconfig.json"] := by
  decide

/-- C10: the compiled `TaskReallocationManager` initializes its last
reallocation time to `-reallocation_period`, so for every period `T_r > 0`
the predicate `shouldReallocate(0.0)` already holds at simulation time `0`;
the header-only variant initializes it to `0.0`, so it first fires at
`t = T_r` and at no earlier nonnegative time. -/
theorem realloc_first_fire_init (T_r : ℝ) (hT : 0 < T_r) :
    shouldReallocate (initLastTimeCpp T_r) T_r 0 ∧
    ¬ shouldReallocate (initLastTimeHeader T_r) T_r 0 ∧
    (∀ t : ℝ, 0 ≤ t → t < T_r → ¬ shouldReallocate (initLastTimeHeader T_r) T_r t) ∧
    shouldReallocate (initLastTimeHeader T_r) T_r T_r := by
  unfold shouldReallocate initLastTimeCpp initLastTimeHeader
  refine ⟨by linarith, by simp; linarith, fun t ht0 htT => by simp; linarith, by linarith⟩

/-- Witness for C10 at the default period `T_r = 2`. -/
theorem realloc_first_fire_init_witness :
    (0 : ℝ) < 2 ∧
    (shouldReallocate (initLastTimeCpp 2) 2 0 ∧
      ¬ shouldReallocate (initLastTimeHeader 2) 2 0 ∧
      (∀ t : ℝ, 0 ≤ t → t < 2 → ¬ shouldReallocate (initLastTimeHeader 2) 2 t) ∧
      shouldReallocate (initLastTimeHeader 2) 2 2) :=
  ⟨by norm_num, realloc_first_fire_init 2 (by norm_num)⟩

/-- C9: the post-run goal audit reports agent `i` exactly when its final
position is farther than `goal_tolerance` from the originally configured
goal column `pf.col(i)`, and the report list does not depend on the
reallocation-maintained current assignment. -/
theorem goalCheck_uses_original_goals (s s' : SimAuditState) (i : ℕ)
    (hNcmd : s'.Ncmd = s.Ncmd) (hpf : s'.pf = s.pf) (hpos : s'.finalPos = s.finalPos)
    (htol : s'.tol = s.tol) :
    (i ∈ goalCheckReports s ↔
      i < s.Ncmd ∧ goalCheckDist (s.finalPos i) (s.pf i) > s.tol) ∧
    goalCheckReports s' = goalCheckReports s := by
  constructor
  · simp [goalCheckReports, List.mem_filter, List.mem_range, decide_eq_true_eq]
  · simp [goalCheckReports, hNcmd, hpf, hpos, htol]

/-- Concrete audit state for the C9 witness. -/
noncomputable def c9State : SimAuditState :=
  { Ncmd := 1
    pf := fun _ => v3zero
    currentAssignment := [0]
    finalPos := fun _ => v3zero
    tol := 1 }

/-- Concrete audit state agreeing with `c9State` except for a swapped
current assignment. -/
noncomputable def c9StateSwapped : SimAuditState :=
  { c9State with currentAssignment := [1] }

/-- Witness for C9: two simulator states differing only in the reallocated
assignment yield the same goal-audit report. -/
theorem goalCheck_uses_original_goals_witness :
    (c9StateSwapped.Ncmd = c9State.Ncmd ∧ c9StateSwapped.pf = c9State.pf ∧
      c9StateSwapped.finalPos = c9State.finalPos ∧ c9StateSwapped.tol = c9State.tol) ∧
    ((0 ∈ goalCheckReports c9State ↔
      0 < c9State.Ncmd ∧
        goalCheckDist (c9State.finalPos 0) (c9State.pf 0) > c9State.tol) ∧
      goalCheckReports c9StateSwapped = goalCheckReports c9State) :=
  ⟨⟨rfl, rfl, rfl, rfl⟩,
    goalCheck_uses_original_goals c9State c9StateSwapped 0 rfl rfl rfl rfl⟩

/-- Length of a `filterMap` whose function is an if-then-some-else-none. -/
theorem length_filterMap_ite {α β : Type} (l : List α) (p : α → Prop)
    [DecidablePred p] (f : α → β) :
    (l.filterMap (fun a => if p a then some (f a) else none)).length =
      (l.filter (fun a => decide (p a))).length := by
  induction l with
  | nil => simp
  | cons a l ih =>
      by_cases h : p a <;> simp [List.filterMap_cons, List.filter_cons, h, ih]

/-- The change test holds exactly when some index below the new assignment's
length differs. -/
theorem assignmentChanged_iff (newA committed0 : List ℤ) :
    assignmentChanged newA committed0 = true ↔
      ∃ i < newA.length, newA.getD i 0 ≠ committed0.getD i 0 := by
  simp [assignmentChanged, List.any_eq_true, List.mem_range]

/-- C5 (amended): at a reallocation tick, `updateAssignment` commits
(overwrites the caller's assignment and the stored committed assignment,
increments the reallocation count, appends one log row per changed agent,
flushes the log, and updates the last reallocation time) if and only if the
newly solved assignment differs at some index from the stored committed
assignment — an empty stored assignment being first initialized to the
caller's; when they are equal it returns `false` and the caller's
assignment, the reallocation count, the last reallocation time, the log and
its flush mark are unchanged, while the stored committed assignment keeps
the (possibly just initialized) compared value. -/
theorem updateAssignment_commit_iff_changed (hung : List (List ℝ) → List ℤ)
    (st : ReallocState) (t : ℝ) (positions : List Vec3) (horizons : List Horizon3D)
    (goals : List Vec3) (assignment : List ℤ) (Ts : ℝ)
    (hs : shouldReallocate st.lastTime st.period t) :
    ((updateAssignment hung st t positions horizons goals assignment Ts).2.2 = true ↔
      ∃ i < (solvedAssignment hung st positions horizons goals Ts).length,
        (solvedAssignment hung st positions horizons goals Ts).getD i 0 ≠
          (committedInit st assignment).getD i 0) ∧
    ((updateAssignment hung st t positions horizons goals assignment Ts).2.2 = true →
      (updateAssignment hung st t positions horizons goals assignment Ts).2.1 =
          solvedAssignment hung st positions horizons goals Ts ∧
      (updateAssignment hung st t positions horizons goals assignment Ts).1.committed =
          solvedAssignment hung st positions horizons goals Ts ∧
      (updateAssignment hung st t positions horizons goals assignment Ts).1.count =
          st.count + 1 ∧
      (updateAssignment hung st t positions horizons goals assignment Ts).1.lastTime = t ∧
      (updateAssignment hung st t positions horizons goals assignment Ts).1.log =
          st.log ++ reallocLogRows t (st.count + 1) st.usePredictive positions goals
            (committedInit st assignment)
            (solvedAssignment hung st positions horizons goals Ts) ∧
      (updateAssignment hung st t positions horizons goals assignment Ts).1.flushed =
          (updateAssignment hung st t positions horizons goals assignment Ts).1.log.length ∧
      (reallocLogRows t (st.count + 1) st.usePredictive positions goals
          (committedInit st assignment)
          (solvedAssignment hung st positions horizons goals Ts)).length =
        ((List.range (solvedAssignment hung st positions horizons goals Ts).length).filter
          (fun i => decide (¬ (if committedInit st assignment = [] then (-1 : ℤ)
              else (committedInit st assignment).getD i 0) =
            (solvedAssignment hung st positions horizons goals Ts).getD i 0))).length) ∧
    ((updateAssignment hung st t positions horizons goals assignment Ts).2.2 = false →
      (updateAssignment hung st t positions horizons goals assignment Ts).2.1 = assignment ∧
      (updateAssignment hung st t positions horizons goals assignment Ts).1.count = st.count ∧
      (updateAssignment hung st t positions horizons goals assignment Ts).1.lastTime =
          st.lastTime ∧
      (updateAssignment hung st t positions horizons goals assignment Ts).1.log = st.log ∧
      (updateAssignment hung st t positions horizons goals assignment Ts).1.flushed =
          st.flushed ∧
      (updateAssignment hung st t positions horizons goals assignment Ts).1.committed =
          committedInit st assignment) := by
  have hrows :
      (reallocLogRows t (st.count + 1) st.usePredictive positions goals
          (committedInit st assignment)
          (solvedAssignment hung st positions horizons goals Ts)).length =
        ((List.range (solvedAssignment hung st positions horizons goals Ts).length).filter
          (fun i => decide (¬ (if committedInit st assignment = [] then (-1 : ℤ)
              else (committedInit st assignment).getD i 0) =
            (solvedAssignment hung st positions horizons goals Ts).getD i 0))).length :=
    length_filterMap_ite (β := ReallocLogRow)
      (List.range (solvedAssignment hung st positions horizons goals Ts).length)
      (fun i => ¬ (if committedInit st assignment = [] then (-1 : ℤ)
          else (committedInit st assignment).getD i 0) =
        (solvedAssignment hung st positions horizons goals Ts).getD i 0)
      (fun i =>
        { timestamp := t
          reallocId := st.count + 1
          agentId := i
          oldGoal := if committedInit st assignment = [] then (-1 : ℤ)
            else (committedInit st assignment).getD i 0
          newGoal := (solvedAssignment hung st positions horizons goals Ts).getD i 0
          distance := norm2 (fun m => (positions.getD i v3zero) m -
            (goals.getD ((solvedAssignment hung st positions horizons goals Ts).getD i 0).toNat
              v3zero) m)
          method := if st.usePredictive then "predictive" else "reactive" })
  by_cases hch : assignmentChanged (solvedAssignment hung st positions horizons goals Ts)
      (committedInit st assignment) = true
  · have hres : updateAssignment hung st t positions horizons goals assignment Ts =
        ({ st with
            count := st.count + 1
            committed := solvedAssignment hung st positions horizons goals Ts
            lastTime := t
            log := st.log ++ reallocLogRows t (st.count + 1) st.usePredictive positions goals
              (committedInit st assignment)
              (solvedAssignment hung st positions horizons goals Ts)
            flushed := (st.log ++ reallocLogRows t (st.count + 1) st.usePredictive positions
              goals (committedInit st assignment)
              (solvedAssignment hung st positions horizons goals Ts)).length },
          solvedAssignment hung st positions horizons goals Ts, true) := by
      unfold updateAssignment
      rw [if_neg (not_not_intro hs), if_pos hch]
    rw [hres]
    refine ⟨by simpa [assignmentChanged_iff] using hch,
      fun _ => ⟨rfl, rfl, rfl, rfl, rfl, rfl, hrows⟩, fun hfalse => by simp at hfalse⟩
  · have hres : updateAssignment hung st t positions horizons goals assignment Ts =
        ({ st with committed := committedInit st assignment }, assignment, false) := by
      unfold updateAssignment
      rw [if_neg (not_not_intro hs), if_neg hch]
    rw [hres]
    refine ⟨⟨fun h => by simp at h, fun h => absurd ((assignmentChanged_iff _ _).mpr h) hch⟩,
      fun htrue => by simp at htrue, fun _ => ⟨rfl, rfl, rfl, rfl, rfl, rfl⟩⟩

/-- A freshly constructed manager state (empty committed assignment, default
period `2`, reactive mode), as built by the `task_reallocation.cpp`
constructor. -/
noncomputable def c5State : ReallocState :=
  { period := 2
    lastTime := -2
    count := 0
    committed := []
    log := []
    flushed := 0
    usePredictive := false
    predictionHorizon := 1 }

/-- A Hungarian stand-in for the one-agent, one-goal instance: the only
perfect matching of a 1×1 cost matrix. -/
def c5Hung : List (List ℝ) → List ℤ := fun _ => [0]

/-- A trivial one-column predicted horizon at the origin. -/
noncomputable def c5Horizon : Horizon3D := { cols := 1, col := fun _ => v3zero }

/-- C5 counterexample: on the very first reallocation tick with an unchanged
assignment, `updateAssignment` returns `false` — so by the claim every piece
of state should be left unchanged — yet the stored committed assignment is
mutated from its empty initial value to the caller's assignment. -/
theorem updateAssignment_first_call_mutates_committed :
    (updateAssignment c5Hung c5State 0 [v3zero] [c5Horizon] [v3zero] [0] 1).2.2 = false ∧
    (updateAssignment c5Hung c5State 0 [v3zero] [c5Horizon] [v3zero] [0] 1).1.committed ≠
      c5State.committed := by
  have hs : shouldReallocate c5State.lastTime c5State.period 0 := by
    simp only [c5State, shouldReallocate]
    norm_num
  have hch : assignmentChanged
      (solvedAssignment c5Hung c5State [v3zero] [c5Horizon] [v3zero] 1)
      (committedInit c5State [0]) = false := by
    simp [assignmentChanged, solvedAssignment, committedInit, c5State, c5Hung]
  have hres : updateAssignment c5Hung c5State 0 [v3zero] [c5Horizon] [v3zero] [0] 1 =
      ({ c5State with committed := committedInit c5State [0] }, ([0] : List ℤ), false) := by
    unfold updateAssignment
    rw [if_neg (not_not_intro hs), if_neg (by simp [hch])]
  rw [hres]
  refine ⟨rfl, ?_⟩
  simp [committedInit, c5State]

/-- Witness for C5 at a concrete reallocation tick. -/
theorem updateAssignment_commit_iff_changed_witness :
    shouldReallocate c5State.lastTime c5State.period 0 ∧
    (((updateAssignment c5Hung c5State 0 [v3zero] [c5Horizon] [v3zero] [0] 1).2.2 = true ↔
      ∃ i < (solvedAssignment c5Hung c5State [v3zero] [c5Horizon] [v3zero] 1).length,
        (solvedAssignment c5Hung c5State [v3zero] [c5Horizon] [v3zero] 1).getD i 0 ≠
          (committedInit c5State [0]).getD i 0) ∧
      ((updateAssignment c5Hung c5State 0 [v3zero] [c5Horizon] [v3zero] [0] 1).2.2 = true →
        (updateAssignment c5Hung c5State 0 [v3zero] [c5Horizon] [v3zero] [0] 1).2.1 =
            solvedAssignment c5Hung c5State [v3zero] [c5Horizon] [v3zero] 1 ∧
        (updateAssignment c5Hung c5State 0 [v3zero] [c5Horizon] [v3zero] [0] 1).1.committed =
            solvedAssignment c5Hung c5State [v3zero] [c5Horizon] [v3zero] 1 ∧
        (updateAssignment c5Hung c5State 0 [v3zero] [c5Horizon] [v3zero] [0] 1).1.count =
            c5State.count + 1 ∧
        (updateAssignment c5Hung c5State 0 [v3zero] [c5Horizon] [v3zero] [0] 1).1.lastTime =
            0 ∧
        (updateAssignment c5Hung c5State 0 [v3zero] [c5Horizon] [v3zero] [0] 1).1.log =
            c5State.log ++ reallocLogRows 0 (c5State.count + 1) c5State.usePredictive
              [v3zero] [v3zero] (committedInit c5State [0])
              (solvedAssignment c5Hung c5State [v3zero] [c5Horizon] [v3zero] 1) ∧
        (updateAssignment c5Hung c5State 0 [v3zero] [c5Horizon] [v3zero] [0] 1).1.flushed =
            (updateAssignment c5Hung c5State 0 [v3zero] [c5Horizon] [v3zero]
              [0] 1).1.log.length ∧
        (reallocLogRows 0 (c5State.count + 1) c5State.usePredictive [v3zero] [v3zero]
            (committedInit c5State [0])
            (solvedAssignment c5Hung c5State [v3zero] [c5Horizon] [v3zero] 1)).length =
          ((List.range (solvedAssignment c5Hung c5State [v3zero] [c5Horizon]
              [v3zero] 1).length).filter
            (fun i => decide (¬ (if committedInit c5State [0] = [] then (-1 : ℤ)
                else (committedInit c5State [0]).getD i 0) =
              (solvedAssignment c5Hung c5State [v3zero] [c5Horizon] [v3zero] 1).getD
                i 0))).length) ∧
      ((updateAssignment c5Hung c5State 0 [v3zero] [c5Horizon] [v3zero] [0] 1).2.2 = false →
        (updateAssignment c5Hung c5State 0 [v3zero] [c5Horizon] [v3zero] [0] 1).2.1 = [0] ∧
        (updateAssignment c5Hung c5State 0 [v3zero] [c5Horizon] [v3zero] [0] 1).1.count =
            c5State.count ∧
        (updateAssignment c5Hung c5State 0 [v3zero] [c5Horizon] [v3zero] [0] 1).1.lastTime =
            c5State.lastTime ∧
        (updateAssignment c5Hung c5State 0 [v3zero] [c5Horizon] [v3zero] [0] 1).1.log =
            c5State.log ∧
        (updateAssignment c5Hung c5State 0 [v3zero] [c5Horizon] [v3zero] [0] 1).1.flushed =
            c5State.flushed ∧
        (updateAssignment c5Hung c5State 0 [v3zero] [c5Horizon] [v3zero] [0] 1).1.committed =
            committedInit c5State [0])) :=
  ⟨by simp only [c5State, shouldReallocate]; norm_num,
    updateAssignment_commit_iff_changed c5Hung c5State 0 [v3zero] [c5Horizon] [v3zero] [0] 1
      (by simp only [c5State, shouldReallocate]; norm_num)⟩

/-- C6: calling `updateAssignment` twice in immediate succession with the
same time and the same inputs leaves the assignment equal to what the first
call produced, for every positive reallocation period. -/
theorem updateAssignment_idempotent (hung : List (List ℝ) → List ℤ)
    (st : ReallocState) (t : ℝ) (positions : List Vec3) (horizons : List Horizon3D)
    (goals : List Vec3) (assignment : List ℤ) (Ts : ℝ) (hT : 0 < st.period) :
    (updateAssignment hung
        (updateAssignment hung st t positions horizons goals assignment Ts).1
        t positions horizons goals
        (updateAssignment hung st t positions horizons goals assignment Ts).2.1 Ts).2.1 =
      (updateAssignment hung st t positions horizons goals assignment Ts).2.1 := by
  by_cases hs : shouldReallocate st.lastTime st.period t
  · by_cases hch : assignmentChanged (solvedAssignment hung st positions horizons goals Ts)
        (committedInit st assignment) = true
    · have hres : updateAssignment hung st t positions horizons goals assignment Ts =
          ({ st with
              count := st.count + 1
              committed := solvedAssignment hung st positions horizons goals Ts
              lastTime := t
              log := st.log ++ reallocLogRows t (st.count + 1) st.usePredictive positions
                goals (committedInit st assignment)
                (solvedAssignment hung st positions horizons goals Ts)
              flushed := (st.log ++ reallocLogRows t (st.count + 1) st.usePredictive positions
                goals (committedInit st assignment)
                (solvedAssignment hung st positions horizons goals Ts)).length },
            solvedAssignment hung st positions horizons goals Ts, true) := by
        unfold updateAssignment
        rw [if_neg (not_not_intro hs), if_pos hch]
      rw [hres]
      have hns : ¬ shouldReallocate t st.period t := by
        unfold shouldReallocate
        simp only [sub_self, not_le]
        exact hT
      unfold updateAssignment
      rw [if_pos]
      exact hns
    · have hres : updateAssignment hung st t positions horizons goals assignment Ts =
          ({ st with committed := committedInit st assignment }, assignment, false) := by
        unfold updateAssignment
        rw [if_neg (not_not_intro hs), if_neg hch]
      rw [hres]
      have hsolved : solvedAssignment hung { st with committed := committedInit st assignment }
          positions horizons goals Ts = solvedAssignment hung st positions horizons goals Ts := by
        unfold solvedAssignment
        rfl
      have hcomm : committedInit { st with committed := committedInit st assignment } assignment =
          committedInit st assignment := by
        unfold committedInit
        by_cases h0 : st.committed = []
        · simp [h0]
        · simp [h0]
      unfold updateAssignment
      rw [if_neg (not_not_intro hs), hsolved, hcomm, if_neg hch]
  · have hres : updateAssignment hung st t positions horizons goals assignment Ts =
        (st, assignment, false) := by
      unfold updateAssignment
      rw [if_pos (by exact hs)]
    rw [hres]
    rw [hres]

/-- Witness for C6 at a concrete positive period. -/
theorem updateAssignment_idempotent_witness :
    (0 : ℝ) < c5State.period ∧
    (updateAssignment c5Hung
        (updateAssignment c5Hung c5State 0 [v3zero] [c5Horizon] [v3zero] [0] 1).1
        0 [v3zero] [c5Horizon] [v3zero]
        (updateAssignment c5Hung c5State 0 [v3zero] [c5Horizon] [v3zero] [0] 1).2.1 1).2.1 =
      (updateAssignment c5Hung c5State 0 [v3zero] [c5Horizon] [v3zero] [0] 1).2.1 :=
  ⟨by simp only [c5State]; norm_num,
    updateAssignment_idempotent c5Hung c5State 0 [v3zero] [c5Horizon] [v3zero] [0] 1
      (by simp only [c5State]; norm_num)⟩

/-- Membership in the BVC scan list: the pair `(k, j)` is collected exactly
when `k` is a horizon step, `j` a body other than the agent, and the code's
ellipsoidal distance is below `rmin * 3`. -/
theorem mem_activePairs (av : BVCAvoider) (agent_id k j : ℕ) :
    (k, j) ∈ activePairs av agent_id ↔
      k < av.k_hor ∧ j < av.N ∧ j ≠ agent_id ∧
        ellipDist (av.ellipse agent_id) (av.horizon agent_id k) (av.horizon j k) <
          (av.ellipse agent_id).rmin * 3 := by
  simp only [activePairs, List.mem_flatMap, List.mem_map, List.mem_filter, List.mem_range,
    decide_eq_true_eq, Prod.mk.injEq]
  constructor
  · rintro ⟨k', hk', j', ⟨⟨hj', hne, hdist⟩, hkk, hjj⟩⟩
    subst hkk
    subst hjj
    exact ⟨hk', hj', hne, hdist⟩
  · rintro ⟨hk, hj, hne, hdist⟩
    exact ⟨k, hk, j, ⟨hj, hne, hdist⟩, rfl, rfl⟩

/-- The BVC scan collects each pair at most once. -/
theorem activePairs_nodup (av : BVCAvoider) (agent_id : ℕ) :
    (activePairs av agent_id).Nodup := by
  unfold activePairs
  rw [List.nodup_flatMap]
  constructor
  · intro k _
    exact ((List.nodup_range av.N).filter _).map (fun a b h => by
      simpa using congrArg Prod.snd h)
  · refine (List.nodup_range av.k_hor).imp ?_
    intro a b hab x hxa hxb
    rcases List.mem_map.mp hxa with ⟨ja, _, rfl⟩
    rcases List.mem_map.mp hxb with ⟨jb, _, hEq⟩
    exact hab (congrArg Prod.fst hEq).symm

/-- C1: the BVC avoider emits exactly one collision half-plane row per pair
`(k, j)`, `j ≠ agent`, whose ellipsoidal distance (computed between the
previous predicted horizons at step `k`) is strictly below `3·r_min`, and no
row for any other pair: the scan list contains each qualifying pair exactly
once and nothing else, the returned block has one collision row (plus one
slack row) per scanned pair, and it is empty exactly when no pair
qualifies. -/
theorem bvc_collision_block_pairs (av : BVCAvoider) (agent_id : ℕ)
    (he : Even (av.ellipse agent_id).order) :
    (activePairs av agent_id).Nodup ∧
    (∀ k j : ℕ, ((k, j) ∈ activePairs av agent_id ↔
      k < av.k_hor ∧ j < av.N ∧ j ≠ agent_id ∧
        spec_qnorm (av.ellipse agent_id) (av.horizon agent_id k) (av.horizon j k) <
          3 * (av.ellipse agent_id).rmin)) ∧
    (buildBVCConstraintForAgent av agent_id).rows = 2 * (activePairs av agent_id).length ∧
    ((buildBVCConstraintForAgent av agent_id).rows = 0 ↔
      ∀ k j : ℕ, k < av.k_hor → j < av.N → j ≠ agent_id →
        ¬ spec_qnorm (av.ellipse agent_id) (av.horizon agent_id k) (av.horizon j k) <
            3 * (av.ellipse agent_id).rmin) := by
  have hmem : ∀ k j : ℕ, ((k, j) ∈ activePairs av agent_id ↔
      k < av.k_hor ∧ j < av.N ∧ j ≠ agent_id ∧
        spec_qnorm (av.ellipse agent_id) (av.horizon agent_id k) (av.horizon j k) <
          3 * (av.ellipse agent_id).rmin) := by
    intro k j
    rw [mem_activePairs, spec_qnorm_eq_ellipDist _ he, mul_comm 3 (av.ellipse agent_id).rmin]
  have hrows : (buildBVCConstraintForAgent av agent_id).rows =
      2 * (activePairs av agent_id).length := by
    unfold buildBVCConstraintForAgent
    by_cases hp : activePairs av agent_id = []
    · simp [hp]
    · simp [hp]
  refine ⟨activePairs_nodup av agent_id, hmem, hrows, ?_⟩
  rw [hrows]
  constructor
  · intro h0 k j hk hj hne hdist
    have hmem' : (k, j) ∈ activePairs av agent_id := (hmem k j).mpr ⟨hk, hj, hne, hdist⟩
    have hlen : (activePairs av agent_id).length = 0 := by omega
    rw [List.length_eq_zero.mp hlen] at hmem'
    exact absurd hmem' (List.not_mem_nil _)
  · intro hnone
    have : activePairs av agent_id = [] := by
      rw [List.eq_nil_iff_forall_not_mem]
      rintro ⟨k, j⟩ hmem'
      rcases (hmem k j).mp hmem' with ⟨hk, hj, hne, hdist⟩
      exact hnone k j hk hj hne hdist
    rw [this]
    rfl

/-- Parameters of the unit-sphere ellipse used in the concrete BVC
instances: order `2`, `r_min = 1`, isotropic scaling. -/
noncomputable def exEllipseParams : EllipseParams :=
  { order := 2, rmin := 1, c := fun _ => 1 }

/-- A concrete two-body avoider: agent `0` one unit away from body `1`
along the x-axis, a single-step horizon, one decision variable, zero
position map. -/
noncomputable def exAvoider : BVCAvoider :=
  { horizon := fun i _ => fun m => if i = 0 ∧ m = 0 then 1 else 0
    Phi_pos := fun _ _ => 0
    numVars := 1
    ellipse := fun _ => mkEllipse exEllipseParams
    k_hor := 1
    N := 2 }

/-- The ellipsoidal distance between the two concrete bodies is `1`. -/
theorem exAvoider_dist :
    ellipDist (exAvoider.ellipse 0) (exAvoider.horizon 0 0) (exAvoider.horizon 1 0) = 1 := by
  have hsum : (∑ m : Fin 3, ((exAvoider.ellipse 0).E1 m *
      (exAvoider.horizon 0 0 m - exAvoider.horizon 1 0 m)) ^ (exAvoider.ellipse 0).order) =
      (1 : ℝ) := by
    simp [exAvoider, mkEllipse, exEllipseParams, Fin.sum_univ_three]
  unfold ellipDist
  rw [hsum]
  exact Real.one_rpow _

/-- The concrete avoider's scan collects exactly the pair `(0, 1)`. -/
theorem exAvoider_activePairs : activePairs exAvoider 0 = [(0, 1)] := by
  have h2 : List.range 2 = [0, 1] := rfl
  have h1 : List.range 1 = [0] := rfl
  unfold activePairs
  rw [show exAvoider.k_hor = 1 from rfl, show exAvoider.N = 2 from rfl, h1, h2]
  rw [List.flatMap_cons, List.flatMap_nil, List.append_nil]
  rw [List.filter_cons, List.filter_cons, List.filter_nil]
  rw [decide_eq_false (by simp), decide_eq_true (by
    refine ⟨by simp, ?_⟩
    rw [exAvoider_dist]
    norm_num [exAvoider, mkEllipse, exEllipseParams])]
  simp

/-- Entry of a collision row of the built constraint in the coefficient
columns. -/
theorem buildBVC_A_coll (av : BVCAvoider) (agent_id idx c : ℕ)
    (hidx : idx < (activePairs av agent_id).length) (hc : c < av.numVars) :
    (buildBVCConstraintForAgent av agent_id).A idx c =
      collRowCoeff av agent_id ((activePairs av agent_id).getD idx (0, 0)).1
        ((activePairs av agent_id).getD idx (0, 0)).2 c := by
  have hne : activePairs av agent_id ≠ [] := by
    intro h
    rw [h] at hidx
    exact absurd hidx (by simp)
  unfold buildBVCConstraintForAgent
  rw [if_neg hne]
  simp only [if_pos hidx, if_pos hc]

/-- Entry of a collision row of the built constraint in the slack columns:
`dist_pow` on its own slack column, `0` on every other. -/
theorem buildBVC_A_slack (av : BVCAvoider) (agent_id idx t : ℕ)
    (hidx : idx < (activePairs av agent_id).length)
    (ht : t < (activePairs av agent_id).length) :
    (buildBVCConstraintForAgent av agent_id).A idx (av.numVars + t) =
      if t = idx then
        bvcDistPow (av.ellipse agent_id)
          (av.horizon agent_id ((activePairs av agent_id).getD idx (0, 0)).1)
          (av.horizon ((activePairs av agent_id).getD idx (0, 0)).2
            ((activePairs av agent_id).getD idx (0, 0)).1)
      else 0 := by
  have hne : activePairs av agent_id ≠ [] := by
    intro h
    rw [h] at hidx
    exact absurd hidx (by simp)
  unfold buildBVCConstraintForAgent
  rw [if_neg hne]
  simp only [if_pos hidx]
  rw [if_neg (by omega)]
  by_cases heq : t = idx
  · rw [if_pos (by omega), if_pos heq]
  · rw [if_neg (by omega), if_neg heq]

/-- Entry of a slack identity row of the built constraint: `1` on the
matching slack column, `0` elsewhere. -/
theorem buildBVC_A_idrow (av : BVCAvoider) (agent_id idx c : ℕ)
    (hidx : idx < (activePairs av agent_id).length) :
    (buildBVCConstraintForAgent av agent_id).A ((activePairs av agent_id).length + idx) c =
      if c = av.numVars + idx then 1 else 0 := by
  have hne : activePairs av agent_id ≠ [] := by
    intro h
    rw [h] at hidx
    exact absurd hidx (by simp)
  unfold buildBVCConstraintForAgent
  rw [if_neg hne]
  simp only []
  rw [if_neg (by omega), if_pos (by omega)]
  have harith : (activePairs av agent_id).length + idx - (activePairs av agent_id).length =
      idx := by
    omega
  rw [harith]

/-- Right-hand side of a collision row of the built constraint. -/
theorem buildBVC_b_coll (av : BVCAvoider) (agent_id idx : ℕ)
    (hidx : idx < (activePairs av agent_id).length) :
    (buildBVCConstraintForAgent av agent_id).b idx =
      collRowRHS av agent_id ((activePairs av agent_id).getD idx (0, 0)).1
        ((activePairs av agent_id).getD idx (0, 0)).2 := by
  have hne : activePairs av agent_id ≠ [] := by
    intro h
    rw [h] at hidx
    exact absurd hidx (by simp)
  unfold buildBVCConstraintForAgent
  rw [if_neg hne]
  simp only [if_pos hidx]

/-- Right-hand side of a slack identity row of the built constraint. -/
theorem buildBVC_b_idrow (av : BVCAvoider) (agent_id idx : ℕ) :
    (buildBVCConstraintForAgent av agent_id).b ((activePairs av agent_id).length + idx) = 0 := by
  unfold buildBVCConstraintForAgent
  by_cases hne : activePairs av agent_id = []
  · rw [if_pos hne]
  · rw [if_neg hne]
    simp only []
    rw [if_neg (by omega)]

/-- C2: every emitted collision row carries, in the coefficient columns, the
spec formula `− gᵀ · Φ_pos[k·3 : k·3+3]` — the gradient `g` on the `k`-th
position block — and the right-hand side
`b = − d^{q−1}·(r_min − d) − gᵀ P_i(:,k)`, where `d` is the ellipsoidal
`q`-norm of the difference of the previous predicted positions and
`g = (E⁻²(P_i(:,k)−P_j(:,k)))^{q−1}` componentwise. -/
theorem bvc_row_matches_spec_formula (av : BVCAvoider) (agent_id idx : ℕ)
    (he : Even (av.ellipse agent_id).order)
    (hidx : idx < (activePairs av agent_id).length) :
    (∀ c : ℕ, c < av.numVars →
      (buildBVCConstraintForAgent av agent_id).A idx c =
        -(∑ m : Fin 3,
          spec_g (av.ellipse agent_id)
              (av.horizon agent_id ((activePairs av agent_id).getD idx (0, 0)).1)
              (av.horizon ((activePairs av agent_id).getD idx (0, 0)).2
                ((activePairs av agent_id).getD idx (0, 0)).1) m *
            av.Phi_pos (((activePairs av agent_id).getD idx (0, 0)).1 * 3 + (m : ℕ)) c)) ∧
    (buildBVCConstraintForAgent av agent_id).b idx =
      -spec_qnorm (av.ellipse agent_id)
            (av.horizon agent_id ((activePairs av agent_id).getD idx (0, 0)).1)
            (av.horizon ((activePairs av agent_id).getD idx (0, 0)).2
              ((activePairs av agent_id).getD idx (0, 0)).1) ^
          ((av.ellipse agent_id).order - 1) *
        ((av.ellipse agent_id).rmin -
          spec_qnorm (av.ellipse agent_id)
            (av.horizon agent_id ((activePairs av agent_id).getD idx (0, 0)).1)
            (av.horizon ((activePairs av agent_id).getD idx (0, 0)).2
              ((activePairs av agent_id).getD idx (0, 0)).1)) -
        ∑ m : Fin 3,
          spec_g (av.ellipse agent_id)
              (av.horizon agent_id ((activePairs av agent_id).getD idx (0, 0)).1)
              (av.horizon ((activePairs av agent_id).getD idx (0, 0)).2
                ((activePairs av agent_id).getD idx (0, 0)).1) m *
            av.horizon agent_id ((activePairs av agent_id).getD idx (0, 0)).1 m := by
  have hd := spec_qnorm_eq_ellipDist (av.ellipse agent_id) he
  constructor
  · intro c hc
    rw [buildBVC_A_coll av agent_id idx c hidx hc]
    unfold collRowCoeff
    rw [Nat.mul_comm 3 ((activePairs av agent_id).getD idx (0, 0)).1]
    rfl
  · rw [buildBVC_b_coll av agent_id idx hidx]
    unfold collRowRHS bvcDistPow
    rw [hd]
    rfl

/-- Witness for C2 on the concrete two-body avoider: its single active pair
is `(0, 1)`, hence index `0` is in range. -/
theorem bvc_row_matches_spec_formula_witness :
    (Even (exAvoider.ellipse 0).order ∧ 0 < (activePairs exAvoider 0).length) ∧
    ((∀ c : ℕ, c < exAvoider.numVars →
      (buildBVCConstraintForAgent exAvoider 0).A 0 c =
        -(∑ m : Fin 3,
          spec_g (exAvoider.ellipse 0)
              (exAvoider.horizon 0 ((activePairs exAvoider 0).getD 0 (0, 0)).1)
              (exAvoider.horizon ((activePairs exAvoider 0).getD 0 (0, 0)).2
                ((activePairs exAvoider 0).getD 0 (0, 0)).1) m *
            exAvoider.Phi_pos (((activePairs exAvoider 0).getD 0 (0, 0)).1 * 3 + (m : ℕ)) c)) ∧
    (buildBVCConstraintForAgent exAvoider 0).b 0 =
      -spec_qnorm (exAvoider.ellipse 0)
            (exAvoider.horizon 0 ((activePairs exAvoider 0).getD 0 (0, 0)).1)
            (exAvoider.horizon ((activePairs exAvoider 0).getD 0 (0, 0)).2
              ((activePairs exAvoider 0).getD 0 (0, 0)).1) ^
          ((exAvoider.ellipse 0).order - 1) *
        ((exAvoider.ellipse 0).rmin -
          spec_qnorm (exAvoider.ellipse 0)
            (exAvoider.horizon 0 ((activePairs exAvoider 0).getD 0 (0, 0)).1)
            (exAvoider.horizon ((activePairs exAvoider 0).getD 0 (0, 0)).2
              ((activePairs exAvoider 0).getD 0 (0, 0)).1)) -
        ∑ m : Fin 3,
          spec_g (exAvoider.ellipse 0)
              (exAvoider.horizon 0 ((activePairs exAvoider 0).getD 0 (0, 0)).1)
              (exAvoider.horizon ((activePairs exAvoider 0).getD 0 (0, 0)).2
                ((activePairs exAvoider 0).getD 0 (0, 0)).1) m *
            exAvoider.horizon 0 ((activePairs exAvoider 0).getD 0 (0, 0)).1 m) :=
  ⟨⟨by decide, by rw [exAvoider_activePairs]; decide⟩,
    bvc_row_matches_spec_formula exAvoider 0 0 (by decide)
      (by rw [exAvoider_activePairs]; decide)⟩

/-- Witness for C1 on the concrete two-body avoider. -/
theorem bvc_collision_block_pairs_witness :
    Even (exAvoider.ellipse 0).order ∧
    ((activePairs exAvoider 0).Nodup ∧
    (∀ k j : ℕ, ((k, j) ∈ activePairs exAvoider 0 ↔
      k < exAvoider.k_hor ∧ j < exAvoider.N ∧ j ≠ 0 ∧
        spec_qnorm (exAvoider.ellipse 0) (exAvoider.horizon 0 k) (exAvoider.horizon j k) <
          3 * (exAvoider.ellipse 0).rmin)) ∧
    (buildBVCConstraintForAgent exAvoider 0).rows = 2 * (activePairs exAvoider 0).length ∧
    ((buildBVCConstraintForAgent exAvoider 0).rows = 0 ↔
      ∀ k j : ℕ, k < exAvoider.k_hor → j < exAvoider.N → j ≠ 0 →
        ¬ spec_qnorm (exAvoider.ellipse 0) (exAvoider.horizon 0 k) (exAvoider.horizon j k) <
            3 * (exAvoider.ellipse 0).rmin)) :=
  ⟨by decide, bvc_collision_block_pairs exAvoider 0 (by decide)⟩

/-- C3 (amended): every collision row is augmented with `+d_ij^{q−1}` on its
dedicated slack column (zeros on the other slack columns), and each slack
variable is constrained to be nonpositive by an identity row with zero
right-hand side, so the softened constraint reads
`a·x + d_ij^{q−1}·s ≤ b` with `s ≤ 0`. -/
theorem bvc_slack_augmentation (av : BVCAvoider) (agent_id idx : ℕ)
    (hidx : idx < (activePairs av agent_id).length) :
    (buildBVCConstraintForAgent av agent_id).A idx (av.numVars + idx) =
      bvcDistPow (av.ellipse agent_id)
        (av.horizon agent_id ((activePairs av agent_id).getD idx (0, 0)).1)
        (av.horizon ((activePairs av agent_id).getD idx (0, 0)).2
          ((activePairs av agent_id).getD idx (0, 0)).1) ∧
    (∀ t : ℕ, t < (activePairs av agent_id).length → t ≠ idx →
      (buildBVCConstraintForAgent av agent_id).A idx (av.numVars + t) = 0) ∧
    (buildBVCConstraintForAgent av agent_id).A
        ((activePairs av agent_id).length + idx) (av.numVars + idx) = 1 ∧
    (∀ c : ℕ, c < av.numVars →
      (buildBVCConstraintForAgent av agent_id).A
        ((activePairs av agent_id).length + idx) c = 0) ∧
    (buildBVCConstraintForAgent av agent_id).b
        ((activePairs av agent_id).length + idx) = 0 := by
  refine ⟨?_, ?_, ?_, ?_, buildBVC_b_idrow av agent_id idx⟩
  · rw [buildBVC_A_slack av agent_id idx idx hidx hidx, if_pos rfl]
  · intro t ht hne
    rw [buildBVC_A_slack av agent_id idx t hidx ht, if_neg hne]
  · rw [buildBVC_A_idrow av agent_id idx (av.numVars + idx) hidx, if_pos rfl]
  · intro c hc
    rw [buildBVC_A_idrow av agent_id idx c hidx, if_neg (by omega)]

/-- Witness for the amended C3 on the concrete two-body avoider. -/
theorem bvc_slack_augmentation_witness :
    0 < (activePairs exAvoider 0).length ∧
    ((buildBVCConstraintForAgent exAvoider 0).A 0 (exAvoider.numVars + 0) =
      bvcDistPow (exAvoider.ellipse 0)
        (exAvoider.horizon 0 ((activePairs exAvoider 0).getD 0 (0, 0)).1)
        (exAvoider.horizon ((activePairs exAvoider 0).getD 0 (0, 0)).2
          ((activePairs exAvoider 0).getD 0 (0, 0)).1) ∧
    (∀ t : ℕ, t < (activePairs exAvoider 0).length → t ≠ 0 →
      (buildBVCConstraintForAgent exAvoider 0).A 0 (exAvoider.numVars + t) = 0) ∧
    (buildBVCConstraintForAgent exAvoider 0).A
        ((activePairs exAvoider 0).length + 0) (exAvoider.numVars + 0) = 1 ∧
    (∀ c : ℕ, c < exAvoider.numVars →
      (buildBVCConstraintForAgent exAvoider 0).A
        ((activePairs exAvoider 0).length + 0) c = 0) ∧
    (buildBVCConstraintForAgent exAvoider 0).b
        ((activePairs exAvoider 0).length + 0) = 0) :=
  ⟨by rw [exAvoider_activePairs]; decide,
    bvc_slack_augmentation exAvoider 0 0 (by rw [exAvoider_activePairs]; decide)⟩

/-- C3 counterexample: on the concrete two-body instance the single
collision row has `+d_ij^{q−1} = 1` (not `−d_ij^{q−1} = −1`) on its slack
column, and the accompanying slack row reads `1·s ≤ 0`, constraining the
slack to be nonpositive rather than nonnegative. -/
theorem bvc_slack_sign_counterexample :
    (buildBVCConstraintForAgent exAvoider 0).A 0 1 = 1 ∧
    (buildBVCConstraintForAgent exAvoider 0).A 0 1 ≠
      -bvcDistPow (exAvoider.ellipse 0) (exAvoider.horizon 0 0) (exAvoider.horizon 1 0) ∧
    (buildBVCConstraintForAgent exAvoider 0).A 1 1 = 1 ∧
    (buildBVCConstraintForAgent exAvoider 0).b 1 = 0 := by
  have hlen : 0 < (activePairs exAvoider 0).length := by
    rw [exAvoider_activePairs]
    decide
  have hpow : bvcDistPow (exAvoider.ellipse 0) (exAvoider.horizon 0 0)
      (exAvoider.horizon 1 0) = 1 := by
    unfold bvcDistPow
    rw [exAvoider_dist]
    norm_num
  have hA01 : (buildBVCConstraintForAgent exAvoider 0).A 0 1 = 1 := by
    have h := buildBVC_A_slack exAvoider 0 0 0 hlen hlen
    rw [if_pos rfl] at h
    have hnum : exAvoider.numVars + 0 = 1 := rfl
    rw [hnum] at h
    rw [h, exAvoider_activePairs]
    simpa [exAvoider_activePairs] using hpow
  have hA11 : (buildBVCConstraintForAgent exAvoider 0).A 1 1 = 1 := by
    have h := buildBVC_A_idrow exAvoider 0 0 (exAvoider.numVars + 0) hlen
    rw [if_pos rfl] at h
    have hrow : (activePairs exAvoider 0).length + 0 = 1 := by
      rw [exAvoider_activePairs]
      rfl
    have hnum : exAvoider.numVars + 0 = 1 := rfl
    rw [hrow, hnum] at h
    exact h
  have hb1 : (buildBVCConstraintForAgent exAvoider 0).b 1 = 0 := by
    have h := buildBVC_b_idrow exAvoider 0 0
    have hrow : (activePairs exAvoider 0).length + 0 = 1 := by
      rw [exAvoider_activePairs]
      rfl
    rw [hrow] at h
    exact h
  refine ⟨hA01, ?_, hA11, hb1⟩
  rw [hA01, hpow]
  norm_num

/-- The minimum-with-index visitor returns an in-range index, attains its
value there, and bounds every coefficient from below. -/
theorem minCoeffIdx_spec (l : List ℝ) (hl : l ≠ []) :
    (minCoeffIdx l).2 < l.length ∧
    l.getD (minCoeffIdx l).2 0 = (minCoeffIdx l).1 ∧
    ∀ x ∈ l, (minCoeffIdx l).1 ≤ x := by
  induction l with
  | nil => exact absurd rfl hl
  | cons x xs ih =>
      by_cases hx : xs = []
      · subst hx
        simp [minCoeffIdx]
      · rcases ih hx with ⟨h1, h2, h3⟩
        by_cases hlt : (minCoeffIdx xs).1 < x
        · have hcond : (minCoeffIdx xs).1 < x ∧ xs ≠ [] := ⟨hlt, hx⟩
          have hstep : minCoeffIdx (x :: xs) =
              ((minCoeffIdx xs).1, (minCoeffIdx xs).2 + 1) := by
            simp only [minCoeffIdx]
            rw [if_pos hcond]
          rw [hstep]
          refine ⟨by simpa using h1, by simpa using h2, ?_⟩
          intro y hy
          rcases List.mem_cons.mp hy with rfl | hy'
          · exact le_of_lt hlt
          · exact h3 y hy'
        · have hcond : ¬ ((minCoeffIdx xs).1 < x ∧ xs ≠ []) := fun h => hlt h.1
          have hstep : minCoeffIdx (x :: xs) = (x, 0) := by
            simp only [minCoeffIdx]
            rw [if_neg hcond]
          rw [hstep]
          refine ⟨by simp, by simp, ?_⟩
          intro y hy
          rcases List.mem_cons.mp hy with rfl | hy'
          · exact le_refl _
          · exact le_trans (not_lt.mp hlt) (h3 y hy')

/-- Reading the `n`-th element of a mapped range. -/
theorem getD_map_range (f : ℕ → ℝ) (K n : ℕ) (hn : n < K) :
    ((List.range K).map f).getD n 0 = f n := by
  rw [List.getD_eq_getElem?_getD, List.getElem?_map, List.getElem?_range hn]
  rfl

/-- Membership of a report row for the pair `(i, j)` in the collision-audit
output: present exactly when the minimum check distance over the horizon
dips below the audit radius, and then the row carries that minimum and the
time of its first attainment. -/
theorem mem_collisionCheckReports (Ncmd K : ℕ) (Ts : ℝ)
    (prm : CollisionCheckParams) (traj : ℕ → ℕ → Vec3) (i j : ℕ) (d tm : ℝ)
    (hij : i < j) (hj : j < Ncmd) :
    (i, j, d, tm) ∈ collisionCheckReports Ncmd K Ts prm traj ↔
      ((minCoeffIdx ((List.range K).map (checkDist prm traj i j))).1 < prm.rmin ∧
        d = (minCoeffIdx ((List.range K).map (checkDist prm traj i j))).1 ∧
        tm = ((minCoeffIdx ((List.range K).map (checkDist prm traj i j))).2 : ℝ) * Ts) := by
  unfold collisionCheckReports
  simp only [List.mem_flatMap, List.mem_filterMap, List.mem_filter, List.mem_range,
    Bool.and_eq_true, decide_eq_true_eq]
  constructor
  · rintro ⟨i', hi', j', ⟨⟨hj', hgei, hnei⟩, hsome⟩⟩
    by_cases hc :
        (minCoeffIdx ((List.range K).map (checkDist prm traj i' j'))).1 < prm.rmin
    · rw [if_pos hc] at hsome
      have hEq := Option.some.inj hsome
      have hi : i' = i := congrArg (fun p => p.1) hEq
      have hjj : j' = j := congrArg (fun p => p.2.1) hEq
      have hd : (minCoeffIdx ((List.range K).map (checkDist prm traj i' j'))).1 = d :=
        congrArg (fun p => p.2.2.1) hEq
      have htm :
          ((minCoeffIdx ((List.range K).map (checkDist prm traj i' j'))).2 : ℝ) * Ts = tm :=
        congrArg (fun p => p.2.2.2) hEq
      subst hi
      subst hjj
      exact ⟨hc, hd.symm, htm.symm⟩
    · rw [if_neg hc] at hsome
      exact absurd hsome (by simp)
  · rintro ⟨hc, rfl, rfl⟩
    refine ⟨i, by omega, j, ⟨⟨hj, by omega, by omega⟩, ?_⟩⟩
    rw [if_pos hc]

/-- C8: after the run, the collision audit reports the pair `(i, j)` —
together with the minimum recorded ellipsoidal distance and the time of its
first attainment (the closest approach) — exactly when the recorded
trajectories fall below the audit radius at some recorded step; any report
row for the pair carries that minimum, an attained in-range step, and a
lower bound on all steps; and the detection leaves the program exit status
at `0` (the run is never aborted). -/
theorem collisionCheck_reports_all_violations (Ncmd K : ℕ) (Ts : ℝ)
    (prm : CollisionCheckParams) (traj : ℕ → ℕ → Vec3) (i j : ℕ)
    (hij : i < j) (hj : j < Ncmd) (hK : 0 < K) :
    (((i, j, (minCoeffIdx ((List.range K).map (checkDist prm traj i j))).1,
        ((minCoeffIdx ((List.range K).map (checkDist prm traj i j))).2 : ℝ) * Ts) ∈
          collisionCheckReports Ncmd K Ts prm traj) ↔
      ∃ k < K, checkDist prm traj i j k < prm.rmin) ∧
    (∀ d tm : ℝ, (i, j, d, tm) ∈ collisionCheckReports Ncmd K Ts prm traj →
      d = (minCoeffIdx ((List.range K).map (checkDist prm traj i j))).1 ∧
      tm = ((minCoeffIdx ((List.range K).map (checkDist prm traj i j))).2 : ℝ) * Ts ∧
      (minCoeffIdx ((List.range K).map (checkDist prm traj i j))).2 < K ∧
      checkDist prm traj i j
          (minCoeffIdx ((List.range K).map (checkDist prm traj i j))).2 = d ∧
      ∀ k < K, d ≤ checkDist prm traj i j k) ∧
    (∀ cv gr : Bool, mainExitCode cv gr = 0) := by
  have hlen : ((List.range K).map (checkDist prm traj i j)).length = K := by
    simp
  have hne : (List.range K).map (checkDist prm traj i j) ≠ [] := by
    intro h
    rw [h] at hlen
    simp at hlen
    omega
  rcases minCoeffIdx_spec _ hne with ⟨hidx, hattain, hmin⟩
  rw [hlen] at hidx
  have hattain' : checkDist prm traj i j
      (minCoeffIdx ((List.range K).map (checkDist prm traj i j))).2 =
      (minCoeffIdx ((List.range K).map (checkDist prm traj i j))).1 := by
    rw [← getD_map_range (checkDist prm traj i j) K _ hidx]
    exact hattain
  have hminlt : (minCoeffIdx ((List.range K).map (checkDist prm traj i j))).1 < prm.rmin ↔
      ∃ k < K, checkDist prm traj i j k < prm.rmin := by
    constructor
    · intro hc
      exact ⟨_, hidx, by rwa [hattain']⟩
    · rintro ⟨k, hk, hdk⟩
      have : (minCoeffIdx ((List.range K).map (checkDist prm traj i j))).1 ≤
          checkDist prm traj i j k := by
        refine hmin _ (List.mem_map.mpr ⟨k, List.mem_range.mpr hk, rfl⟩)
      exact lt_of_le_of_lt this hdk
  refine ⟨?_, ?_, fun _ _ => rfl⟩
  · rw [mem_collisionCheckReports Ncmd K Ts prm traj i j _ _ hij hj]
    rw [← hminlt]
    constructor
    · rintro ⟨hc, _, _⟩
      exact hc
    · intro hc
      exact ⟨hc, rfl, rfl⟩
  · intro d tm hmem
    rcases (mem_collisionCheckReports Ncmd K Ts prm traj i j d tm hij hj).mp hmem with
      ⟨hc, rfl, rfl⟩
    refine ⟨rfl, rfl, hidx, hattain', ?_⟩
    intro k hk
    exact hmin _ (List.mem_map.mpr ⟨k, List.mem_range.mpr hk, rfl⟩)

/-- Witness for C8 on a concrete two-body instance. -/
theorem collisionCheck_reports_all_violations_witness :
    ((0 : ℕ) < 1 ∧ (1 : ℕ) < 2 ∧ (0 : ℕ) < 1) ∧
    ((((0, 1, (minCoeffIdx ((List.range 1).map
          (checkDist ⟨1, 2, 1⟩ (fun _ _ => v3zero) 0 1))).1,
        ((minCoeffIdx ((List.range 1).map
          (checkDist ⟨1, 2, 1⟩ (fun _ _ => v3zero) 0 1))).2 : ℝ) * 1) ∈
          collisionCheckReports 2 1 1 ⟨1, 2, 1⟩ (fun _ _ => v3zero)) ↔
      ∃ k < 1, checkDist ⟨1, 2, 1⟩ (fun _ _ => v3zero) 0 1 k < (1 : ℝ)) ∧
    (∀ d tm : ℝ,
      (0, 1, d, tm) ∈ collisionCheckReports 2 1 1 ⟨1, 2, 1⟩ (fun _ _ => v3zero) →
      d = (minCoeffIdx ((List.range 1).map
          (checkDist ⟨1, 2, 1⟩ (fun _ _ => v3zero) 0 1))).1 ∧
      tm = ((minCoeffIdx ((List.range 1).map
          (checkDist ⟨1, 2, 1⟩ (fun _ _ => v3zero) 0 1))).2 : ℝ) * 1 ∧
      (minCoeffIdx ((List.range 1).map
          (checkDist ⟨1, 2, 1⟩ (fun _ _ => v3zero) 0 1))).2 < 1 ∧
      checkDist ⟨1, 2, 1⟩ (fun _ _ => v3zero) 0 1
          (minCoeffIdx ((List.range 1).map
            (checkDist ⟨1, 2, 1⟩ (fun _ _ => v3zero) 0 1))).2 = d ∧
      ∀ k < 1, d ≤ checkDist ⟨1, 2, 1⟩ (fun _ _ => v3zero) 0 1 k) ∧
    (∀ cv gr : Bool, mainExitCode cv gr = 0)) :=
  ⟨⟨by decide, by decide, by decide⟩,
    collisionCheck_reports_all_violations 2 1 1 ⟨1, 2, 1⟩ (fun _ _ => v3zero) 0 1
      (by decide) (by decide) (by decide)⟩

/-- C4 (amended): for nonnegative prediction horizon and positive `Ts`, the
predictive reallocation samples each agent's predicted horizon at lookahead
step `k* = ⌊T_pred / Ts⌋` (truncation, not rounding), clamped to the last
column when the horizon has fewer than `k*+1` columns, and builds the cost
matrix `C[i][j] = ‖P_i(:,k*) − g_j‖₂`. -/
theorem predictive_cost_matrix_floor_step (ph Ts : ℝ) (positions : List Vec3)
    (horizons : List Horizon3D) (goals : List Vec3) (hph : 0 ≤ ph) (hTs : 0 < Ts) :
    predictiveCostMatrix ph Ts positions horizons goals =
      spec_floor_predictive_cost_matrix ph Ts positions horizons goals := by
  have hq : 0 ≤ ph / Ts := div_nonneg hph (le_of_lt hTs)
  have hcast : castInt (ph / Ts) = ⌊ph / Ts⌋ := by
    unfold castInt
    rw [if_pos hq]
  have hfl : 0 ≤ ⌊ph / Ts⌋ := Int.floor_nonneg.mpr hq
  unfold predictiveCostMatrix spec_floor_predictive_cost_matrix
  rw [hcast]
  refine List.map_congr_left ?_
  intro i _
  have hcond : (⌊ph / Ts⌋ < ((horizons.getD i ⟨0, fun _ => v3zero⟩).cols : ℤ)) ↔
      ((⌊ph / Ts⌋).toNat < (horizons.getD i ⟨0, fun _ => v3zero⟩).cols) := by
    omega
  simp only [hcond]

/-- A concrete three-column horizon moving along the x-axis: column `k` is
`(k, 0, 0)`. -/
noncomputable def c4Horizon : Horizon3D :=
  { cols := 3, col := fun k => fun m => if m = 0 then (k : ℝ) else 0 }

/-- The truncated lookahead step of the concrete C4 instance. -/
theorem c4_floor_step : castInt ((3 : ℝ) / 2) = 1 := by
  unfold castInt
  rw [if_pos (by norm_num)]
  rw [Int.floor_eq_iff]
  constructor
  · norm_num
  · norm_num

/-- The rounded lookahead step of the concrete C4 instance. -/
theorem c4_round_step : round ((3 : ℝ) / 2) = 2 := by
  rw [round_eq]
  rw [show (3 : ℝ) / 2 + 1 / 2 = ((2 : ℤ) : ℝ) by norm_num]
  exact Int.floor_intCast 2

/-- C4 counterexample: with `T_pred = 3` and `Ts = 2` the code samples
column `⌊1.5⌋ = 1` of the predicted horizon (cost `1`), while the claimed
`round(1.5) = 2` sampling yields cost `2`; the produced cost matrix differs
from the claimed one. -/
theorem predictive_step_truncates_not_rounds :
    ((predictiveCostMatrix 3 2 [v3zero] [c4Horizon] [v3zero]).getD 0 []).getD 0 0 = 1 ∧
    ((spec_round_predictive_cost_matrix 3 2 [v3zero] [c4Horizon]
        [v3zero]).getD 0 []).getD 0 0 = 2 ∧
    predictiveCostMatrix 3 2 [v3zero] [c4Horizon] [v3zero] ≠
      spec_round_predictive_cost_matrix 3 2 [v3zero] [c4Horizon] [v3zero] := by
  have h4 : Real.sqrt 4 = 2 := by
    rw [show (4 : ℝ) = 2 ^ 2 by norm_num, Real.sqrt_sq (by norm_num : (0 : ℝ) ≤ 2)]
  have hcode : ((predictiveCostMatrix 3 2 [v3zero] [c4Horizon] [v3zero]).getD 0 []).getD
      0 0 = 1 := by
    unfold predictiveCostMatrix
    rw [c4_floor_step]
    norm_num [List.range_succ, c4Horizon, v3zero, norm2, Fin.sum_univ_three, Real.sqrt_one,
      (by decide : ¬ (1 : Fin 3) = 0), (by decide : ¬ (2 : Fin 3) = 0)]
  have hspec : ((spec_round_predictive_cost_matrix 3 2 [v3zero] [c4Horizon]
      [v3zero]).getD 0 []).getD 0 0 = 2 := by
    unfold spec_round_predictive_cost_matrix
    rw [c4_round_step]
    norm_num [List.range_succ, c4Horizon, v3zero, norm2, Fin.sum_univ_three, h4,
      (by decide : ¬ (1 : Fin 3) = 0), (by decide : ¬ (2 : Fin 3) = 0),
      (by decide : Int.toNat 2 = 2)]
  refine ⟨hcode, hspec, ?_⟩
  intro heq
  rw [heq] at hcode
  rw [hspec] at hcode
  norm_num at hcode

/-- Witness for the amended C4 at a concrete nonnegative horizon and
positive step. -/
theorem predictive_cost_matrix_floor_step_witness :
    ((0 : ℝ) ≤ 3 ∧ (0 : ℝ) < 2) ∧
    predictiveCostMatrix 3 2 [v3zero] [c4Horizon] [v3zero] =
      spec_floor_predictive_cost_matrix 3 2 [v3zero] [c4Horizon] [v3zero] :=
  ⟨⟨by norm_num, by norm_num⟩,
    predictive_cost_matrix_floor_step 3 2 [v3zero] [c4Horizon] [v3zero]
      (by norm_num) (by norm_num)⟩

end OnlineDMPC
